import Mathlib

/-!
Verification development for the Json_Map_Viewer renderer (src/render.js,
class MapRenderer).  The JavaScript code is shallowly embedded: JS numbers
are modelled by `JVal` (a finite rational, +Infinity, -Infinity, or NaN)
with IEEE-style arithmetic for the operations the renderer uses, and each
method of `MapRenderer` becomes a Lean function on an explicit state
record `RState`.  Map data (parsed JSON) always holds finite numbers, so
document coordinates are plain rationals.
-/

unseal Rat.add Rat.mul Rat.inv Rat.sub Rat.ofScientific

/-- Model of a JavaScript number as used by the renderer: a finite value
(an exact rational, standing in for the float), positive infinity,
negative infinity, or NaN. -/
inductive JVal where
  | fin (q : ℚ)
  | pinf
  | ninf
  | nan
deriving DecidableEq, Repr

namespace JVal

/-- JS addition. -/
def jadd : JVal → JVal → JVal
  | nan, _ => nan
  | _, nan => nan
  | fin a, fin b => fin (a + b)
  | pinf, ninf => nan
  | ninf, pinf => nan
  | pinf, _ => pinf
  | _, pinf => pinf
  | ninf, _ => ninf
  | _, ninf => ninf

/-- JS negation. -/
def jneg : JVal → JVal
  | fin a => fin (-a)
  | pinf => ninf
  | ninf => pinf
  | nan => nan

/-- JS subtraction. -/
def jsub (a b : JVal) : JVal := jadd a (jneg b)

/-- JS multiplication. -/
def jmul : JVal → JVal → JVal
  | nan, _ => nan
  | _, nan => nan
  | fin a, fin b => fin (a * b)
  | fin a, pinf => if 0 < a then pinf else if a < 0 then ninf else nan
  | pinf, fin b => if 0 < b then pinf else if b < 0 then ninf else nan
  | fin a, ninf => if 0 < a then ninf else if a < 0 then pinf else nan
  | ninf, fin b => if 0 < b then ninf else if b < 0 then pinf else nan
  | pinf, pinf => pinf
  | pinf, ninf => ninf
  | ninf, pinf => ninf
  | ninf, ninf => pinf

/-- JS division (the renderer only ever divides by a finite value or by
zero; zero denominators follow IEEE: x/0 is a signed infinity for x ≠ 0
and NaN for x = 0). -/
def jdiv : JVal → JVal → JVal
  | nan, _ => nan
  | _, nan => nan
  | fin a, fin b =>
      if b = 0 then (if 0 < a then pinf else if a < 0 then ninf else nan)
      else fin (a / b)
  | fin _, pinf => fin 0
  | fin _, ninf => fin 0
  | pinf, fin b => if 0 ≤ b then pinf else ninf
  | ninf, fin b => if 0 ≤ b then ninf else pinf
  | _, _ => nan

/-- JS Math.min. -/
def jmin : JVal → JVal → JVal
  | nan, _ => nan
  | _, nan => nan
  | ninf, _ => ninf
  | _, ninf => ninf
  | pinf, b => b
  | a, pinf => a
  | fin a, fin b => fin (min a b)

/-- JS Math.max. -/
def jmax : JVal → JVal → JVal
  | nan, _ => nan
  | _, nan => nan
  | pinf, _ => pinf
  | _, pinf => pinf
  | ninf, b => b
  | a, ninf => a
  | fin a, fin b => fin (max a b)

/-- JS strict less-than comparison (false whenever an operand is NaN). -/
def jlt : JVal → JVal → Bool
  | nan, _ => false
  | _, nan => false
  | ninf, ninf => false
  | ninf, _ => true
  | _, ninf => false
  | pinf, _ => false
  | fin _, pinf => true
  | fin a, fin b => decide (a < b)

/-- Whether the value is finite. -/
def isFinite : JVal → Bool
  | fin _ => true
  | _ => false

end JVal

open JVal

/-- A boundary point of a road as read from the map JSON: raw coordinates
plus optional per-point style attributes. -/
structure BPoint where
  x : ℚ
  y : ℚ
  LineColor : Option String := none
  LineType : Option String := none
deriving DecidableEq, Repr

/-- A road line from the map JSON: an optional RoadId and an ordered
sequence of boundary points. -/
structure Road where
  RoadId : Option String := none
  BoundaryPoints : List BPoint := []
deriving DecidableEq, Repr

/-- The document offset (`offset` field of the JSON). -/
structure OffPoint where
  x : ℚ
  y : ℚ
  z : ℚ := 0
deriving DecidableEq, Repr

/-- A parsed map document: optional offset and optional roadLine array. -/
structure MapData where
  offset : Option OffPoint := none
  roadLine : Option (List Road) := none
deriving DecidableEq, Repr

/-- The mutable state of a `MapRenderer` instance: loaded data, document
offset, computed bounds, view transform, canvas CSS-pixel size, grid flag
and current selection. -/
structure RState where
  data : Option MapData := none
  offset : OffPoint := ⟨0, 0, 0⟩
  minX : JVal := JVal.pinf
  maxX : JVal := JVal.ninf
  minY : JVal := JVal.pinf
  maxY : JVal := JVal.ninf
  scale : JVal := JVal.fin 1
  translateX : JVal := JVal.fin 0
  translateY : JVal := JVal.fin 0
  clientWidth : ℚ := 0
  clientHeight : ℚ := 0
  showGrid : Bool := false
  selectedRoad : Option Road := none
deriving DecidableEq, Repr

/-- The outlier threshold `REASONABLE_LIMIT = 1e12` of `calculateBounds`. -/
def REASONABLE_LIMIT : ℚ := 10 ^ 12

/-- One step of the bounds fold of `calculateBounds`: subtract the offset
from the raw point, skip it if either coordinate magnitude exceeds
`REASONABLE_LIMIT`, otherwise fold it into the running min/max.  The
accumulator is (minX, maxX, minY, maxY). -/
def boundsStep (off : OffPoint) (acc : JVal × JVal × JVal × JVal) (point : BPoint) :
    JVal × JVal × JVal × JVal :=
  let x := point.x - off.x
  let y := point.y - off.y
  if REASONABLE_LIMIT < |x| ∨ REASONABLE_LIMIT < |y| then acc
  else
    (jmin acc.1 (JVal.fin x), jmax acc.2.1 (JVal.fin x),
     jmin acc.2.2.1 (JVal.fin y), jmax acc.2.2.2 (JVal.fin y))

/-- The nested forEach of `calculateBounds` over roads and points. -/
def boundsFold (off : OffPoint) (roads : List Road) (acc : JVal × JVal × JVal × JVal) :
    JVal × JVal × JVal × JVal :=
  roads.foldl (fun a road => road.BoundaryPoints.foldl (boundsStep off) a) acc

/-- `MapRenderer.calculateBounds`: reset the bounds to the empty sentinel,
then, if data with a roadLine array is present, fold every boundary point
of every road (offset-subtracted, outliers skipped) into the min/max. -/
def calculateBounds (s : RState) : RState :=
  let init : JVal × JVal × JVal × JVal := (JVal.pinf, JVal.ninf, JVal.pinf, JVal.ninf)
  match s.data with
  | none => { s with minX := init.1, maxX := init.2.1, minY := init.2.2.1, maxY := init.2.2.2 }
  | some d =>
    match d.roadLine with
    | none => { s with minX := init.1, maxX := init.2.1, minY := init.2.2.1, maxY := init.2.2.2 }
    | some rl =>
      let r := boundsFold s.offset rl init
      { s with minX := r.1, maxX := r.2.1, minY := r.2.2.1, maxY := r.2.2.2 }

/-- `MapRenderer.fitBounds`: no-op on the empty sentinel; otherwise set
`scale = min(canvasWidth*(1-0.1)/mapWidth, canvasHeight*(1-0.1)/mapHeight)`
and centre the bounds rectangle. -/
def fitBounds (s : RState) : RState :=
  if s.minX = JVal.pinf then s
  else
    let mapWidth := jsub s.maxX s.minX
    let mapHeight := jsub s.maxY s.minY
    let canvasWidth := s.clientWidth
    let canvasHeight := s.clientHeight
    let padding : ℚ := 1 / 10
    let scaleX := jdiv (JVal.fin (canvasWidth * (1 - padding))) mapWidth
    let scaleY := jdiv (JVal.fin (canvasHeight * (1 - padding))) mapHeight
    let scale := jmin scaleX scaleY
    let scaledMapWidth := jmul mapWidth scale
    let scaledMapHeight := jmul mapHeight scale
    let tx := jsub (jdiv (jsub (JVal.fin canvasWidth) scaledMapWidth) (JVal.fin 2))
                   (jmul s.minX scale)
    let ty := jsub (jdiv (jsub (JVal.fin canvasHeight) scaledMapHeight) (JVal.fin 2))
                   (jmul s.minY scale)
    { s with scale := scale, translateX := tx, translateY := ty }

/-- `MapRenderer.loadData`: store the document, take its offset (or the
zero default), recompute bounds and refit the view.  (`draw` issues canvas
commands only and does not change the state.) -/
def loadData (s : RState) (jsonData : MapData) : RState :=
  let s1 := { s with data := some jsonData, offset := jsonData.offset.getD ⟨0, 0, 0⟩ }
  fitBounds (calculateBounds s1)

/-- `MapRenderer.worldToCanvas`: subtract the offset, scale, translate and
flip the Y axis. -/
def worldToCanvas (s : RState) (x y : JVal) : JVal × JVal :=
  (jadd (jmul (jsub x (JVal.fin s.offset.x)) s.scale) s.translateX,
   jsub (JVal.fin s.clientHeight)
        (jadd (jmul (jsub y (JVal.fin s.offset.y)) s.scale) s.translateY))

/-- `MapRenderer.canvasToWorld`: the screen-to-world conversion added for
picking; it undoes scale/translation/Y-flip but does not re-add the
offset (its result is in offset-adjusted world space). -/
def canvasToWorld (s : RState) (canvasX canvasY : JVal) : JVal × JVal :=
  (jdiv (jsub canvasX s.translateX) s.scale,
   jdiv (jsub (jsub (JVal.fin s.clientHeight) canvasY) s.translateY) s.scale)

/-- `MapRenderer.zoom`: convert the zoom centre to raw world coordinates
(re-adding the offset), rescale, then recompute the translation so that
world point stays at the same canvas position. -/
def zoom (s : RState) (factor centerX centerY : JVal) : RState :=
  let worldX := jadd (jdiv (jsub centerX s.translateX) s.scale) (JVal.fin s.offset.x)
  let worldY := jadd (jdiv (jsub (jsub (JVal.fin s.clientHeight) centerY) s.translateY) s.scale)
                     (JVal.fin s.offset.y)
  let scale2 := jmul s.scale factor
  let tx := jsub centerX (jmul (jsub worldX (JVal.fin s.offset.x)) scale2)
  let ty := jsub (jsub (JVal.fin s.clientHeight) centerY)
                 (jmul (jsub worldY (JVal.fin s.offset.y)) scale2)
  { s with scale := scale2, translateX := tx, translateY := ty }

/-- The consecutive point pairs (pts[i], pts[i+1]) of a point list. -/
def consecPairs (pts : List BPoint) : List (BPoint × BPoint) :=
  pts.zip pts.tail

/-- One segment step of the forEach loop in `MapRenderer.selectRoadAt`:
offset-adjust the raw pair, skip zero-length segments, otherwise clamp the
projection of the click onto the segment and keep the segment's squared
distance when it strictly beats the running minimum.  The accumulator is
(minDistance, closestRoad). -/
def pickSegStep (s : RState) (click : JVal × JVal) (road : Road)
    (acc : JVal × Option Road) (pr : BPoint × BPoint) : JVal × Option Road :=
  let p1x := pr.1.x - s.offset.x
  let p1y := pr.1.y - s.offset.y
  let p2x := pr.2.x - s.offset.x
  let p2y := pr.2.y - s.offset.y
  let dx := p2x - p1x
  let dy := p2y - p1y
  let lenSq := dx * dx + dy * dy
  if lenSq = 0 then acc
  else
    let t := jdiv (jadd (jmul (jsub click.1 (JVal.fin p1x)) (JVal.fin dx))
                        (jmul (jsub click.2 (JVal.fin p1y)) (JVal.fin dy)))
                  (JVal.fin lenSq)
    let tClamped := jmax (JVal.fin 0) (jmin (JVal.fin 1) t)
    let closestPointX := jadd (JVal.fin p1x) (jmul tClamped (JVal.fin dx))
    let closestPointY := jadd (JVal.fin p1y) (jmul tClamped (JVal.fin dy))
    let distSq := jadd (jmul (jsub click.1 closestPointX) (jsub click.1 closestPointX))
                       (jmul (jsub click.2 closestPointY) (jsub click.2 closestPointY))
    if jlt distSq acc.1 then (distSq, some road) else acc

/-- `MapRenderer.selectRoadAt`: convert the click to (offset-adjusted)
world space, scan every segment of every road for the strictly smallest
squared distance, and select the winning road when that minimum is below
the squared world tolerance `(5 / scale)^2`; otherwise clear the
selection.  Returns the new state and the selected road (the method's
return value is derived from it, see `selectRoadAtInfo`). -/
def selectRoadAt (s : RState) (canvasX canvasY : JVal) : RState × Option Road :=
  match s.data with
  | none => (s, none)
  | some d =>
    match d.roadLine with
    | none => (s, none)
    | some rl =>
      let clickWorldPos := canvasToWorld s canvasX canvasY
      let clickThreshold := jdiv (JVal.fin 5) s.scale
      let r := rl.foldl
        (fun acc road =>
          (consecPairs road.BoundaryPoints).foldl (pickSegStep s clickWorldPos road) acc)
        (JVal.pinf, none)
      if jlt r.1 (jmul clickThreshold clickThreshold) then
        ({ s with selectedRoad := r.2 }, r.2)
      else
        ({ s with selectedRoad := none }, none)

/-- `MapRenderer.calculateRoadLength`: sum of Euclidean distances between
consecutive raw boundary points (the offset is never subtracted here). -/
noncomputable def calculateRoadLength (road : Road) : ℝ :=
  (consecPairs road.BoundaryPoints).foldl
    (fun totalLength pr =>
      let dx := pr.2.x - pr.1.x
      let dy := pr.2.y - pr.1.y
      totalLength + Real.sqrt ((dx * dx + dy * dy : ℚ) : ℝ))
    0

/-- JS `road.RoadId || '未命名'`: absent or empty ids fall back to the
placeholder label. -/
def jsIdOr : Option String → String
  | some i => if i = "" then "未命名" else i
  | none => "未命名"

/-- The info object `{id, length}` returned by a successful pick. -/
structure SelectInfo where
  id : String
  length : ℝ

/-- The return value of `MapRenderer.selectRoadAt`: the id (with the
unnamed fallback) and length of the selected road, or none. -/
noncomputable def selectRoadAtInfo (s : RState) (canvasX canvasY : JVal) : Option SelectInfo :=
  (selectRoadAt s canvasX canvasY).2.map
    (fun road => ⟨jsIdOr road.RoadId, calculateRoadLength road⟩)

/-- The draw calls a single road produces: resolved stroke style and the
canvas polyline through all of its boundary points. -/
structure RoadDrawing where
  lineWidth : ℚ
  strokeStyle : String
  lineDash : List ℚ
  pts : List (JVal × JVal)
deriving DecidableEq, Repr

/-- `MapRenderer.drawRoadLine`: roads with fewer than two points are not
drawn; a road whose RoadId equals the selected road's RoadId (JS `===`,
so two absent ids also match) gets the highlight style (lineWidth 4,
lime, solid), any other road gets the style derived from its first
point; then the polyline is traced through every boundary point via
`worldToCanvas`. -/
def drawRoadLine (s : RState) (road : Road) : Option RoadDrawing :=
  match road.BoundaryPoints with
  | firstPoint :: _ :: _ =>
    let highlighted : Bool :=
      match s.selectedRoad with
      | some sr => decide (sr.RoadId = road.RoadId)
      | none => false
    let pts := road.BoundaryPoints.map (fun p => worldToCanvas s (JVal.fin p.x) (JVal.fin p.y))
    if highlighted then
      some ⟨4, "lime", [], pts⟩
    else
      let color : String :=
        match firstPoint.LineColor with
        | some "white" => "white"
        | some "standard" => "gray"
        | _ => "white"
      let dash : List ℚ := if firstPoint.LineType = some "broken" then [5, 5] else []
      some ⟨2, color, dash, pts⟩
  | _ => none

/-- Whether a point survives the outlier filter of `calculateBounds`. -/
def inThreshold (off : OffPoint) (p : BPoint) : Bool :=
  decide (|p.x - off.x| ≤ REASONABLE_LIMIT ∧ |p.y - off.y| ≤ REASONABLE_LIMIT)

/-- The document with every outlier boundary point removed (used to state
that bounds are derived solely from in-threshold points). -/
def filterOutlierDoc (off : OffPoint) (d : MapData) : MapData :=
  { d with
    roadLine := d.roadLine.map (fun rl =>
      rl.map (fun r => { r with BoundaryPoints := r.BoundaryPoints.filter (inThreshold off) })) }

/-- A road with all boundary points shifted by a fixed translation (used
to state that road length ignores the document offset). -/
def shiftRoad (road : Road) (dx dy : ℚ) : Road :=
  { road with BoundaryPoints := road.BoundaryPoints.map (fun p => { p with x := p.x + dx, y := p.y + dy }) }

/-- Modelled from the claim's words (C6): the squared distance from the
click to the nearest point of a zero-length pair is the squared distance
to its single point; a nonzero pair uses the clamped projection exactly
as the code does. -/
def claimSegDistSq (click : JVal × JVal) (p1x p1y p2x p2y : ℚ) : JVal :=
  let dx := p2x - p1x
  let dy := p2y - p1y
  let lenSq := dx * dx + dy * dy
  if lenSq = 0 then
    jadd (jmul (jsub click.1 (JVal.fin p1x)) (jsub click.1 (JVal.fin p1x)))
         (jmul (jsub click.2 (JVal.fin p1y)) (jsub click.2 (JVal.fin p1y)))
  else
    let t := jdiv (jadd (jmul (jsub click.1 (JVal.fin p1x)) (JVal.fin dx))
                        (jmul (jsub click.2 (JVal.fin p1y)) (JVal.fin dy)))
                  (JVal.fin lenSq)
    let tClamped := jmax (JVal.fin 0) (jmin (JVal.fin 1) t)
    let closestPointX := jadd (JVal.fin p1x) (jmul tClamped (JVal.fin dx))
    let closestPointY := jadd (JVal.fin p1y) (jmul tClamped (JVal.fin dy))
    jadd (jmul (jsub click.1 closestPointX) (jsub click.1 closestPointX))
         (jmul (jsub click.2 closestPointY) (jsub click.2 closestPointY))

/-- Modelled from the claim's words (C6): pick over every consecutive
point pair of every road, zero-length pairs included, keeping the first
road that achieves the strict global minimum, and select it when the
minimum is below the squared world tolerance. -/
def claimedPick (s : RState) (canvasX canvasY : JVal) : Option Road :=
  match s.data with
  | none => none
  | some d =>
    match d.roadLine with
    | none => none
    | some rl =>
      let clickWorldPos := canvasToWorld s canvasX canvasY
      let clickThreshold := jdiv (JVal.fin 5) s.scale
      let r := rl.foldl
        (fun acc road =>
          (consecPairs road.BoundaryPoints).foldl
            (fun acc2 pr =>
              let d2 := claimSegDistSq clickWorldPos (pr.1.x - s.offset.x) (pr.1.y - s.offset.y)
                          (pr.2.x - s.offset.x) (pr.2.y - s.offset.y)
              if jlt d2 acc2.1 then (d2, some road) else acc2)
            acc)
        ((JVal.pinf : JVal), (none : Option Road))
      if jlt r.1 (jmul clickThreshold clickThreshold) then r.2 else none

/-- Rational squared distance from `w` to the clamped projection onto the
segment `p1p2` (only meaningful for nondegenerate segments). -/
def segDistSqQ (w : ℚ × ℚ) (p1 p2 : ℚ × ℚ) : ℚ :=
  let dx := p2.1 - p1.1
  let dy := p2.2 - p1.2
  let lenSq := dx * dx + dy * dy
  let t := ((w.1 - p1.1) * dx + (w.2 - p1.2) * dy) / lenSq
  let tc := max 0 (min 1 t)
  (w.1 - (p1.1 + tc * dx)) * (w.1 - (p1.1 + tc * dx)) +
    (w.2 - (p1.2 + tc * dy)) * (w.2 - (p1.2 + tc * dy))

/-- The candidate a consecutive pair contributes to the pick: nothing for
a zero-length pair, otherwise its road tagged with the rational squared
distance of the click to the (offset-adjusted) segment. -/
def candOfPair (off : OffPoint) (w : ℚ × ℚ) (road : Road) (pr : BPoint × BPoint) :
    Option (Road × ℚ) :=
  let p1 : ℚ × ℚ := (pr.1.x - off.x, pr.1.y - off.y)
  let p2 : ℚ × ℚ := (pr.2.x - off.x, pr.2.y - off.y)
  let dx := p2.1 - p1.1
  let dy := p2.2 - p1.2
  if dx * dx + dy * dy = 0 then none else some (road, segDistSqQ w p1 p2)

/-- The candidate list the picker effectively minimises over: for each
road in document order, each nondegenerate offset-adjusted consecutive
pair paired with its rational squared distance to the click. -/
def roadCandsQ (off : OffPoint) (w : ℚ × ℚ) : List Road → List (Road × ℚ)
  | [] => []
  | rd :: rest =>
    (consecPairs rd.BoundaryPoints).filterMap (candOfPair off w rd) ++ roadCandsQ off w rest

/-- The rational counterpart of the picker's strict-minimum fold. -/
def pickStepQ (acc : Option ℚ × Option Road) (c : Road × ℚ) : Option ℚ × Option Road :=
  match acc.1 with
  | none => (some c.2, some c.1)
  | some d => if c.2 < d then (some c.2, some c.1) else acc

/-- The per-pair step of the rational picking fold: skip pairs that
contribute no candidate, otherwise apply the strict-minimum step. -/
def segStepQ (off : OffPoint) (w : ℚ × ℚ) (road : Road)
    (acc : Option ℚ × Option Road) (pr : BPoint × BPoint) : Option ℚ × Option Road :=
  match candOfPair off w road pr with
  | none => acc
  | some c => pickStepQ acc c

/-- Embedding of the rational running minimum back into JS numbers. -/
def embedMin : Option ℚ → JVal
  | none => JVal.pinf
  | some q => JVal.fin q

/-! Concrete renderer states and documents used to evaluate the claims on
explicit inputs. -/

/-- A view state with a nonzero document offset (offset 100,100), unit
scale and zero translation on an 800x600 canvas. -/
@[reducible] def cex1State : RState :=
  { offset := ⟨100, 100, 0⟩, scale := JVal.fin 1, translateX := JVal.fin 0,
    translateY := JVal.fin 0, clientWidth := 800, clientHeight := 600 }

/-- A simple two-point road. -/
@[reducible] def cexRoad : Road := ⟨some "R1", [⟨0, 0, none, none⟩, ⟨10, 0, none, none⟩]⟩

/-- A state in which `cexRoad` is currently selected. -/
@[reducible] def cex2State : RState :=
  { clientWidth := 800, clientHeight := 600, selectedRoad := some cexRoad }

/-- A minimal document (explicit zero offset, empty roadLine array). -/
@[reducible] def cex2Doc : MapData := ⟨some ⟨0, 0, 0⟩, some []⟩

/-- A state whose bounds are a single point (both axes degenerate). -/
@[reducible] def cex3State : RState :=
  { minX := JVal.fin 0, maxX := JVal.fin 0, minY := JVal.fin 0, maxY := JVal.fin 0,
    clientWidth := 800, clientHeight := 600 }

/-- A view state with document offset (100,0), unit scale and zero
translation on an 800x600 canvas. -/
@[reducible] def cex4State : RState :=
  { offset := ⟨100, 0, 0⟩, scale := JVal.fin 1, translateX := JVal.fin 0,
    translateY := JVal.fin 0, clientWidth := 800, clientHeight := 600 }

/-- A road whose only consecutive point pair is zero-length, sitting at
the world origin. -/
@[reducible] def cexRoadA : Road := ⟨some "A", [⟨0, 0, none, none⟩, ⟨0, 0, none, none⟩]⟩

/-- A road with one genuine segment at distance 1 from the world origin. -/
@[reducible] def cexRoadB : Road := ⟨some "B", [⟨1, 0, none, none⟩, ⟨1, 1, none, none⟩]⟩

/-- A state holding the two roads above with an identity view transform. -/
@[reducible] def cex6State : RState :=
  { data := some ⟨some ⟨0, 0, 0⟩, some [cexRoadA, cexRoadB]⟩, offset := ⟨0, 0, 0⟩,
    scale := JVal.fin 1, translateX := JVal.fin 0, translateY := JVal.fin 0,
    clientWidth := 800, clientHeight := 600 }

/-- The road of the spec scenario for road length: offset 100,100 and raw
points (100,100) and (110,100). -/
@[reducible] def cexRoadR1 : Road := ⟨some "R1", [⟨100, 100, none, none⟩, ⟨110, 100, none, none⟩]⟩

/-- A state whose loaded document consists of a single road with a single
entirely-outlier point (x = 2e12). -/
@[reducible] def cex8State : RState :=
  { data := some ⟨some ⟨0, 0, 0⟩, some [⟨some "X", [⟨2 * 10 ^ 12, 0, none, none⟩]⟩]⟩,
    scale := JVal.fin 7, translateX := JVal.fin 3, translateY := JVal.fin 4,
    clientWidth := 800, clientHeight := 600 }

/-- A document with one road holding two in-threshold points and one
outlier point (x = 5e12). -/
@[reducible] def cex7Doc : MapData :=
  ⟨some ⟨0, 0, 0⟩,
   some [⟨some "R", [⟨0, 0, none, none⟩, ⟨10, 0, none, none⟩, ⟨5 * 10 ^ 12, 7, none, none⟩]⟩]⟩

/-- A state holding `cex7Doc`. -/
@[reducible] def cex7State : RState :=
  { data := some cex7Doc, clientWidth := 800, clientHeight := 600 }

/-- A state with the non-degenerate bounds [0,10]x[0,10] on an 800x600
canvas. -/
@[reducible] def cex5State : RState :=
  { minX := JVal.fin 0, maxX := JVal.fin 10, minY := JVal.fin 0, maxY := JVal.fin 10,
    clientWidth := 800, clientHeight := 600 }

/-- A drawable road without a RoadId. -/
@[reducible] def cexNoId1 : Road := ⟨none, [⟨0, 0, none, none⟩, ⟨1, 0, none, none⟩]⟩

/-- A second, distinct drawable road without a RoadId. -/
@[reducible] def cexNoId2 : Road := ⟨none, [⟨5, 5, none, none⟩, ⟨6, 5, none, none⟩]⟩

/-- A state in which `cexNoId1` (an id-less road) is selected. -/
@[reducible] def cex10State : RState :=
  { selectedRoad := some cexNoId1, clientWidth := 800, clientHeight := 600 }

/-! Theorems.  First the arithmetic lemmas about the JS number model, then
helper lemmas about the renderer functions, then one theorem (plus
witness or counterexample) per claim. -/

@[simp] theorem JVal.jadd_fin (a b : ℚ) : jadd (fin a) (fin b) = fin (a + b) := rfl

@[simp] theorem JVal.jneg_fin (a : ℚ) : jneg (fin a) = fin (-a) := rfl

@[simp] theorem JVal.jsub_fin (a b : ℚ) : jsub (fin a) (fin b) = fin (a - b) := by
  simp [jsub, jadd, sub_eq_add_neg]

@[simp] theorem JVal.jmul_fin (a b : ℚ) : jmul (fin a) (fin b) = fin (a * b) := rfl

theorem JVal.jdiv_fin (a b : ℚ) (hb : b ≠ 0) : jdiv (fin a) (fin b) = fin (a / b) := by
  simp [jdiv, hb]

theorem JVal.jdiv_fin_zero_pos (a : ℚ) (ha : 0 < a) : jdiv (fin a) (fin 0) = pinf := by
  simp [jdiv, ha, not_lt.mpr (le_of_lt ha)]

@[simp] theorem JVal.jmin_fin (a b : ℚ) : jmin (fin a) (fin b) = fin (min a b) := rfl

@[simp] theorem JVal.jmin_pinf_fin (b : ℚ) : jmin pinf (fin b) = fin b := rfl

@[simp] theorem JVal.jmin_fin_pinf (a : ℚ) : jmin (fin a) pinf = fin a := rfl

@[simp] theorem JVal.jmax_fin (a b : ℚ) : jmax (fin a) (fin b) = fin (max a b) := rfl

@[simp] theorem JVal.jlt_fin (a b : ℚ) : jlt (fin a) (fin b) = decide (a < b) := rfl

@[simp] theorem JVal.jlt_fin_pinf (a : ℚ) : jlt (fin a) pinf = true := rfl

theorem canvasToWorld_fin (s : RState) (sc a b : ℚ) (hsc : sc ≠ 0) (hs : s.scale = fin sc)
    (hx : s.translateX = fin a) (hy : s.translateY = fin b) (cx cy : ℚ) :
    canvasToWorld s (fin cx) (fin cy) =
      (fin ((cx - a) / sc), fin ((s.clientHeight - cy - b) / sc)) := by
  simp [canvasToWorld, hs, hx, hy, JVal.jdiv_fin _ _ hsc]

theorem worldToCanvas_fin (s : RState) (sc a b : ℚ) (hs : s.scale = fin sc)
    (hx : s.translateX = fin a) (hy : s.translateY = fin b) (x y : ℚ) :
    worldToCanvas s (fin x) (fin y) =
      (fin ((x - s.offset.x) * sc + a), fin (s.clientHeight - ((y - s.offset.y) * sc + b))) := by
  simp [worldToCanvas, hs, hx, hy]

/-- C1 (counterexample): with a nonzero document offset (100,100), unit
scale and zero translation, composing `canvasToWorld` with
`worldToCanvas` does not return the original screen point: the code's
`canvasToWorld` does not re-add the offset that `worldToCanvas`
subtracts. -/
theorem c1_counterexample :
    worldToCanvas cex1State (canvasToWorld cex1State (fin 10) (fin 20)).1
        (canvasToWorld cex1State (fin 10) (fin 20)).2 ≠ (fin 10, fin 20) := by
  decide

/-- C1 (amended): `canvasToWorld` inverts `worldToCanvas` only up to the
document offset: it returns offset-adjusted world coordinates, and for
every view state with finite nonzero scale and finite translation,
re-adding the offset to its output and applying `worldToCanvas` returns
the original screen point exactly. -/
theorem c1_roundtrip_with_offset (s : RState) (sc a b : ℚ) (hsc : sc ≠ 0)
    (hs : s.scale = fin sc) (hx : s.translateX = fin a) (hy : s.translateY = fin b)
    (sx sy : ℚ) :
    worldToCanvas s (jadd (canvasToWorld s (fin sx) (fin sy)).1 (fin s.offset.x))
        (jadd (canvasToWorld s (fin sx) (fin sy)).2 (fin s.offset.y)) =
      (fin sx, fin sy) := by
  rw [canvasToWorld_fin s sc a b hsc hs hx hy]
  simp only [JVal.jadd_fin]
  rw [worldToCanvas_fin s sc a b hs hx hy]
  simp only [Prod.mk.injEq, JVal.fin.injEq]
  constructor <;> field_simp <;> ring

/-- C1 (witness for the amended theorem): the re-adding round trip at a
concrete state and screen point. -/
theorem c1_roundtrip_with_offset_witness :
    worldToCanvas cex1State (jadd (canvasToWorld cex1State (fin 3) (fin 4)).1 (fin cex1State.offset.x))
        (jadd (canvasToWorld cex1State (fin 3) (fin 4)).2 (fin cex1State.offset.y)) =
      (fin 3, fin 4) :=
  c1_roundtrip_with_offset cex1State 1 0 0 (by norm_num) rfl rfl rfl 3 4

theorem fitBounds_selectedRoad (s : RState) : (fitBounds s).selectedRoad = s.selectedRoad := by
  unfold fitBounds
  split <;> rfl

theorem calculateBounds_selectedRoad (s : RState) :
    (calculateBounds s).selectedRoad = s.selectedRoad := by
  unfold calculateBounds
  repeat' split
  all_goals rfl

/-- C2 (counterexample): loading a fresh document while `cexRoad` is
selected leaves it selected: `loadData` does not clear the selection. -/
theorem c2_counterexample :
    cex2State.selectedRoad = some cexRoad ∧
      (loadData cex2State cex2Doc).selectedRoad ≠ none := by
  decide

/-- C2 (amended): `loadData` leaves the selection exactly as it was: for
every state and every incoming document, the selected road after the load
equals the selected road before it (nothing clears it). -/
theorem c2_load_preserves_selection (s : RState) (jsonData : MapData) :
    (loadData s jsonData).selectedRoad = s.selectedRoad := by
  show (fitBounds (calculateBounds _)).selectedRoad = _
  rw [fitBounds_selectedRoad, calculateBounds_selectedRoad]

/-- C4 (counterexample): with document offset (100,0), the literal
composition fails: the point `canvasToWorld` assigns to the zoom centre
before `zoom` is not mapped back to the centre by `worldToCanvas` after
`zoom`, because `canvasToWorld` output lacks the offset that both `zoom`
and `worldToCanvas` expect in raw world coordinates. -/
theorem c4_counterexample :
    worldToCanvas (zoom cex4State (fin 2) (fin 10) (fin 20))
        (canvasToWorld cex4State (fin 10) (fin 20)).1
        (canvasToWorld cex4State (fin 10) (fin 20)).2 ≠ (fin 10, fin 20) := by
  decide

/-- C4 (amended): zoom anchor invariance holds for the raw world point
under the zoom centre: for every factor and centre and every view state
with finite nonzero scale and finite translation, the raw world point
obtained by re-adding the offset to `canvasToWorld` of the centre (the
point `zoom` itself computes) is mapped by `worldToCanvas` back to the
centre, exactly, after `zoom` completes. -/
theorem c4_zoom_anchor (s : RState) (sc a b : ℚ) (hsc : sc ≠ 0) (hs : s.scale = fin sc)
    (hx : s.translateX = fin a) (hy : s.translateY = fin b) (factor cx cy : ℚ) :
    worldToCanvas (zoom s (fin factor) (fin cx) (fin cy))
        (jadd (canvasToWorld s (fin cx) (fin cy)).1 (fin s.offset.x))
        (jadd (canvasToWorld s (fin cx) (fin cy)).2 (fin s.offset.y)) =
      (fin cx, fin cy) := by
  rw [canvasToWorld_fin s sc a b hsc hs hx hy]
  simp only [JVal.jadd_fin]
  unfold zoom worldToCanvas
  rw [hs, hx, hy]
  simp only [JVal.jsub_fin, JVal.jdiv_fin _ _ hsc, JVal.jadd_fin, JVal.jmul_fin]
  simp only [Prod.mk.injEq, JVal.fin.injEq]
  constructor <;> field_simp

/-- C4 (witness for the amended theorem): the anchored zoom at a concrete
state, factor 2 and centre (10,20). -/
theorem c4_zoom_anchor_witness :
    worldToCanvas (zoom cex4State (fin 2) (fin 10) (fin 20))
        (jadd (canvasToWorld cex4State (fin 10) (fin 20)).1 (fin cex4State.offset.x))
        (jadd (canvasToWorld cex4State (fin 10) (fin 20)).2 (fin cex4State.offset.y)) =
      (fin 10, fin 20) :=
  c4_zoom_anchor cex4State 1 0 0 (by norm_num) rfl rfl rfl 2 10 20

/-- C3 (counterexample): with non-empty bounds degenerate in both axes (a
single point) and a positive 800x600 viewport, `fitBounds` sets the scale
to +Infinity — not to a finite positive number and not to a 1.0
default. -/
theorem c3_counterexample :
    (fitBounds cex3State).scale = JVal.pinf ∧
      (fitBounds cex3State).scale.isFinite = false := by
  decide

/-- C3 (amended): when exactly one axis of non-empty bounds is degenerate,
`fitBounds` does not divide by zero in any harmful way: the degenerate
axis produces an infinite candidate scale and `Math.min` picks the other
axis's computed value, which is finite and positive for a positive
viewport.  (When both axes are degenerate the scale becomes +Infinity,
see the counterexample.) -/
theorem c3_degenerate_axis_scale (s : RState) (a b c d : ℚ)
    (hminX : s.minX = fin a) (hmaxX : s.maxX = fin b)
    (hminY : s.minY = fin c) (hmaxY : s.maxY = fin d)
    (hone : (b = a ∧ c < d) ∨ (a < b ∧ d = c))
    (hcw : 0 < s.clientWidth) (hch : 0 < s.clientHeight) :
    (fitBounds s).scale =
      fin (if b = a then s.clientHeight * (1 - 1 / 10) / (d - c)
           else s.clientWidth * (1 - 1 / 10) / (b - a)) ∧
    0 < (if b = a then s.clientHeight * (1 - 1 / 10) / (d - c)
         else s.clientWidth * (1 - 1 / 10) / (b - a)) := by
  have hnot : s.minX ≠ JVal.pinf := by rw [hminX]; exact fun h => JVal.noConfusion h
  unfold fitBounds
  rw [if_neg hnot, hminX, hmaxX, hminY, hmaxY]
  rcases hone with ⟨hba, hcd⟩ | ⟨hab, hdc⟩
  · subst hba
    have hdc0 : d - c ≠ 0 := sub_ne_zero.mpr (ne_of_gt hcd)
    have hw0 : (0 : ℚ) < s.clientWidth * (1 - 1 / 10) := by
      have : (0 : ℚ) < 1 - 1 / 10 := by norm_num
      exact mul_pos hcw this
    simp only [JVal.jsub_fin, sub_self]
    rw [JVal.jdiv_fin_zero_pos _ hw0, JVal.jdiv_fin _ _ hdc0, JVal.jmin_pinf_fin]
    have hpos : (0 : ℚ) < s.clientHeight * (1 - 1 / 10) := by
      have h9 : (0 : ℚ) < 1 - 1 / 10 := by norm_num
      exact mul_pos hch h9
    constructor
    · simp
    · simpa using div_pos hpos (sub_pos.mpr hcd)
  · subst hdc
    have hba0 : b - a ≠ 0 := sub_ne_zero.mpr (ne_of_gt hab)
    have hh0 : (0 : ℚ) < s.clientHeight * (1 - 1 / 10) := by
      have : (0 : ℚ) < 1 - 1 / 10 := by norm_num
      exact mul_pos hch this
    simp only [JVal.jsub_fin, sub_self]
    rw [JVal.jdiv_fin_zero_pos _ hh0, JVal.jdiv_fin _ _ hba0, JVal.jmin_fin_pinf]
    rw [if_neg (by exact fun h => absurd h (ne_of_gt hab))]
    refine ⟨rfl, ?_⟩
    have : (0 : ℚ) < s.clientWidth * (1 - 1 / 10) := by
      have h9 : (0 : ℚ) < 1 - 1 / 10 := by norm_num
      exact mul_pos hcw h9
    exact div_pos this (sub_pos.mpr hab)

/-- C3 (witness for the amended theorem): a width-degenerate bounds box
(single x, y from 0 to 10) on an 800x600 canvas gets the Y-axis scale
600*0.9/10 = 54. -/
theorem c3_degenerate_axis_scale_witness :
    (fitBounds { minX := fin 5, maxX := fin 5, minY := fin 0, maxY := fin 10,
                 clientWidth := 800, clientHeight := 600 : RState }).scale =
      fin (if (5 : ℚ) = 5 then (600 : ℚ) * (1 - 1 / 10) / (10 - 0)
           else (800 : ℚ) * (1 - 1 / 10) / (5 - 5)) :=
  (c3_degenerate_axis_scale _ 5 5 0 10 rfl rfl rfl rfl
    (Or.inl ⟨rfl, by norm_num⟩) (by norm_num) (by norm_num)).1

theorem boundsStep_skip (off : OffPoint) (acc : JVal × JVal × JVal × JVal) (p : BPoint)
    (h : REASONABLE_LIMIT < |p.x - off.x| ∨ REASONABLE_LIMIT < |p.y - off.y|) :
    boundsStep off acc p = acc := by
  unfold boundsStep
  rw [if_pos h]

theorem foldl_boundsStep_skip (off : OffPoint) (pts : List BPoint)
    (h : ∀ p ∈ pts, REASONABLE_LIMIT < |p.x - off.x| ∨ REASONABLE_LIMIT < |p.y - off.y|)
    (acc : JVal × JVal × JVal × JVal) :
    pts.foldl (boundsStep off) acc = acc := by
  induction pts generalizing acc with
  | nil => rfl
  | cons p rest ih =>
    rw [List.foldl_cons, boundsStep_skip off acc p (h p (List.mem_cons_self p rest))]
    exact ih (fun q hq => h q (List.mem_cons_of_mem p hq)) acc

theorem boundsFold_skip (off : OffPoint) (roads : List Road)
    (h : ∀ road ∈ roads, ∀ p ∈ road.BoundaryPoints,
      REASONABLE_LIMIT < |p.x - off.x| ∨ REASONABLE_LIMIT < |p.y - off.y|)
    (acc : JVal × JVal × JVal × JVal) :
    boundsFold off roads acc = acc := by
  induction roads generalizing acc with
  | nil => rfl
  | cons rd rest ih =>
    show boundsFold off rest (rd.BoundaryPoints.foldl (boundsStep off) acc) = acc
    rw [foldl_boundsStep_skip off rd.BoundaryPoints
      (fun p hp => h rd (List.mem_cons_self rd rest) p hp) acc]
    exact ih (fun road hroad p hp => h road (List.mem_cons_of_mem rd hroad) p hp) acc

/-- C8: if the loaded geometry is empty or consists entirely of outlier
points, `calculateBounds` yields the empty sentinel (minX = +Infinity)
and `fitBounds` is then a complete no-op: the state (in particular scale,
translateX, translateY) is returned exactly unchanged. -/
theorem c8_empty_or_outliers_noop (s : RState)
    (h : ∀ d, s.data = some d → ∀ rl, d.roadLine = some rl →
      ∀ road ∈ rl, ∀ p ∈ road.BoundaryPoints,
        REASONABLE_LIMIT < |p.x - s.offset.x| ∨ REASONABLE_LIMIT < |p.y - s.offset.y|) :
    (calculateBounds s).minX = JVal.pinf ∧
      fitBounds (calculateBounds s) = calculateBounds s := by
  have hmin : (calculateBounds s).minX = JVal.pinf := by
    cases hd : s.data with
    | none => unfold calculateBounds; rw [hd]
    | some d =>
      cases hrl : d.roadLine with
      | none =>
        unfold calculateBounds
        rw [hd]
        dsimp only
        rw [hrl]
      | some rl =>
        unfold calculateBounds
        rw [hd]
        dsimp only
        rw [hrl]
        dsimp only
        rw [boundsFold_skip s.offset rl (h d hd rl hrl) _]
  refine ⟨hmin, ?_⟩
  unfold fitBounds
  rw [if_pos hmin]

/-- C8 (witness): for a document with a single all-outlier road the
computed minX is the +Infinity sentinel and `fitBounds` returns the state
unchanged. -/
theorem c8_empty_or_outliers_noop_witness :
    (calculateBounds cex8State).minX = JVal.pinf ∧
      fitBounds (calculateBounds cex8State) = calculateBounds cex8State :=
  c8_empty_or_outliers_noop cex8State (by
    intro d hd rl hrl road hroad p hp
    injection hd with hd1
    subst hd1
    injection hrl with hrl1
    subst hrl1
    rw [List.mem_singleton] at hroad
    subst hroad
    rw [List.mem_singleton] at hp
    subst hp
    left
    norm_num [REASONABLE_LIMIT])

/-- C10: the highlight decision compares RoadId values, not object
identity: whenever some road is selected, every road with at least two
points whose RoadId equals the selected road's RoadId (including the case
where both ids are absent) is drawn with the highlight style (lineWidth
4, lime stroke, solid dash). -/
theorem c10_highlight_by_id (s : RState) (road sr : Road)
    (hsel : s.selectedRoad = some sr) (hid : sr.RoadId = road.RoadId)
    (hlen : 2 ≤ road.BoundaryPoints.length) :
    ∃ dr, drawRoadLine s road = some dr ∧
      dr.lineWidth = 4 ∧ dr.strokeStyle = "lime" ∧ dr.lineDash = [] := by
  obtain ⟨p, q, rest, hpts⟩ : ∃ p q rest, road.BoundaryPoints = p :: q :: rest := by
    match hl : road.BoundaryPoints with
    | [] => rw [hl] at hlen; simp at hlen
    | [p] => rw [hl] at hlen; simp at hlen
    | p :: q :: rest => exact ⟨p, q, rest, rfl⟩
  unfold drawRoadLine
  rw [hpts, hsel]
  dsimp only
  rw [hid]
  simp

/-- C10 (witness): with an id-less road selected, a different id-less
road is also drawn highlighted. -/
theorem c10_highlight_by_id_witness :
    ((drawRoadLine cex10State cexNoId2).map
        (fun dr => (dr.lineWidth, dr.strokeStyle, dr.lineDash))) = some (4, "lime", []) := by
  obtain ⟨dr, h, h1, h2, h3⟩ :=
    c10_highlight_by_id cex10State cexNoId2 cexNoId1 rfl rfl (by decide)
  rw [h]
  simp [h1, h2, h3]

theorem inThreshold_false_skip (off : OffPoint) (p : BPoint) (hp : ¬ inThreshold off p = true) :
    REASONABLE_LIMIT < |p.x - off.x| ∨ REASONABLE_LIMIT < |p.y - off.y| := by
  have h2 : ¬ (|p.x - off.x| ≤ REASONABLE_LIMIT ∧ |p.y - off.y| ≤ REASONABLE_LIMIT) := by
    intro hand
    exact hp (by simp [inThreshold, hand.1, hand.2])
  rcases not_and_or.mp h2 with h1 | h1
  · exact Or.inl (not_le.mp h1)
  · exact Or.inr (not_le.mp h1)

theorem foldl_boundsStep_filter (off : OffPoint) (pts : List BPoint)
    (acc : JVal × JVal × JVal × JVal) :
    pts.foldl (boundsStep off) acc =
      (pts.filter (inThreshold off)).foldl (boundsStep off) acc := by
  induction pts generalizing acc with
  | nil => rfl
  | cons p rest ih =>
    by_cases hp : inThreshold off p = true
    · rw [List.filter_cons_of_pos hp, List.foldl_cons, List.foldl_cons]
      exact ih _
    · rw [List.filter_cons_of_neg hp, List.foldl_cons,
        boundsStep_skip off acc p (inThreshold_false_skip off p hp)]
      exact ih acc

theorem boundsFold_filter (off : OffPoint) (roads : List Road)
    (acc : JVal × JVal × JVal × JVal) :
    boundsFold off roads acc =
      boundsFold off
        (roads.map (fun r => { r with BoundaryPoints := r.BoundaryPoints.filter (inThreshold off) }))
        acc := by
  induction roads generalizing acc with
  | nil => rfl
  | cons rd rest ih =>
    show boundsFold off rest (rd.BoundaryPoints.foldl (boundsStep off) acc) =
      boundsFold off
        (rest.map (fun r => { r with BoundaryPoints := r.BoundaryPoints.filter (inThreshold off) }))
        ((rd.BoundaryPoints.filter (inThreshold off)).foldl (boundsStep off) acc)
    rw [foldl_boundsStep_filter off rd.BoundaryPoints acc]
    exact ih _

theorem calculateBounds_data (s : RState) : (calculateBounds s).data = s.data := by
  unfold calculateBounds
  repeat' split
  all_goals rfl

theorem calculateBounds_roadLine_none (s : RState) (doc : MapData)
    (hdoc : s.data = some doc) (hrl : doc.roadLine = none) :
    calculateBounds s =
      { s with minX := JVal.pinf, maxX := JVal.ninf, minY := JVal.pinf, maxY := JVal.ninf } := by
  unfold calculateBounds
  rw [hdoc]
  dsimp only
  rw [hrl]

theorem calculateBounds_some (s : RState) (doc : MapData) (rl : List Road)
    (hdoc : s.data = some doc) (hrl : doc.roadLine = some rl) :
    calculateBounds s =
      { s with
        minX := (boundsFold s.offset rl (JVal.pinf, JVal.ninf, JVal.pinf, JVal.ninf)).1,
        maxX := (boundsFold s.offset rl (JVal.pinf, JVal.ninf, JVal.pinf, JVal.ninf)).2.1,
        minY := (boundsFold s.offset rl (JVal.pinf, JVal.ninf, JVal.pinf, JVal.ninf)).2.2.1,
        maxY := (boundsFold s.offset rl (JVal.pinf, JVal.ninf, JVal.pinf, JVal.ninf)).2.2.2 } := by
  unfold calculateBounds
  rw [hdoc]
  dsimp only
  rw [hrl]

theorem drawRoadLine_pts (s : RState) (road : Road) (dr : RoadDrawing)
    (h : drawRoadLine s road = some dr) :
    dr.pts = road.BoundaryPoints.map (fun p => worldToCanvas s (fin p.x) (fin p.y)) := by
  unfold drawRoadLine at h
  cases hpts : road.BoundaryPoints with
  | nil => rw [hpts] at h; exact absurd h (by simp)
  | cons p tail =>
    cases tail with
    | nil => rw [hpts] at h; exact absurd h (by simp)
    | cons q rest =>
      rw [hpts] at h
      dsimp only at h
      split at h
      · injection h with h2
        subst h2
        rfl
      · injection h with h2
        subst h2
        rfl

/-- C7: bounds are derived solely from in-threshold points, and outlier
points are neither removed from the data nor skipped when drawing: the
four bounds `calculateBounds` computes on a document equal those computed
on the document with every outlier point filtered out, `calculateBounds`
leaves the loaded data untouched, and every boundary point of a drawn
road (outliers included) contributes a vertex to the drawn polyline. -/
theorem c7_outlier_exclusion (s : RState) (doc : MapData) (hdoc : s.data = some doc) :
    ((calculateBounds { s with data := some (filterOutlierDoc s.offset doc) }).minX =
        (calculateBounds s).minX ∧
      (calculateBounds { s with data := some (filterOutlierDoc s.offset doc) }).maxX =
        (calculateBounds s).maxX ∧
      (calculateBounds { s with data := some (filterOutlierDoc s.offset doc) }).minY =
        (calculateBounds s).minY ∧
      (calculateBounds { s with data := some (filterOutlierDoc s.offset doc) }).maxY =
        (calculateBounds s).maxY) ∧
    (calculateBounds s).data = s.data ∧
    ∀ road dr, drawRoadLine s road = some dr →
      ∀ p ∈ road.BoundaryPoints, worldToCanvas s (fin p.x) (fin p.y) ∈ dr.pts := by
  refine ⟨?_, calculateBounds_data s, ?_⟩
  · cases hrl : doc.roadLine with
    | none =>
      have hf : (filterOutlierDoc s.offset doc).roadLine = none := by
        simp [filterOutlierDoc, hrl]
      rw [calculateBounds_roadLine_none { s with data := some (filterOutlierDoc s.offset doc) }
            (filterOutlierDoc s.offset doc) rfl hf,
          calculateBounds_roadLine_none s doc hdoc hrl]
      exact ⟨rfl, rfl, rfl, rfl⟩
    | some rl =>
      have hf : (filterOutlierDoc s.offset doc).roadLine =
          some (rl.map
            (fun r => { r with BoundaryPoints := r.BoundaryPoints.filter (inThreshold s.offset) })) := by
        simp [filterOutlierDoc, hrl]
      rw [calculateBounds_some { s with data := some (filterOutlierDoc s.offset doc) }
            (filterOutlierDoc s.offset doc) _ rfl hf,
          calculateBounds_some s doc rl hdoc hrl]
      refine ⟨?_, ?_, ?_, ?_⟩ <;> dsimp only <;> rw [← boundsFold_filter]
  · intro road dr h p hp
    rw [drawRoadLine_pts s road dr h]
    exact List.mem_map_of_mem _ hp

/-- C7 (witness): the document with one outlier point (x = 5e12) gets the
same bounds as its filtered version, and the data is left unchanged. -/
theorem c7_outlier_exclusion_witness :
    (calculateBounds { cex7State with data := some (filterOutlierDoc cex7State.offset cex7Doc) }).minX =
      (calculateBounds cex7State).minX ∧
    (calculateBounds cex7State).data = cex7State.data :=
  ⟨(c7_outlier_exclusion cex7State cex7Doc rfl).1.1,
   (c7_outlier_exclusion cex7State cex7Doc rfl).2.1⟩

theorem fitBounds_nondegenerate (s : RState) (a b c d : ℚ)
    (hminX : s.minX = fin a) (hmaxX : s.maxX = fin b)
    (hminY : s.minY = fin c) (hmaxY : s.maxY = fin d)
    (hba : b - a ≠ 0) (hdc : d - c ≠ 0) :
    fitBounds s =
      { s with
        scale := fin (min (s.clientWidth * (1 - 1 / 10) / (b - a))
                          (s.clientHeight * (1 - 1 / 10) / (d - c))),
        translateX := fin ((s.clientWidth -
            (b - a) * min (s.clientWidth * (1 - 1 / 10) / (b - a))
                          (s.clientHeight * (1 - 1 / 10) / (d - c))) / 2 -
          a * min (s.clientWidth * (1 - 1 / 10) / (b - a))
                  (s.clientHeight * (1 - 1 / 10) / (d - c))),
        translateY := fin ((s.clientHeight -
            (d - c) * min (s.clientWidth * (1 - 1 / 10) / (b - a))
                          (s.clientHeight * (1 - 1 / 10) / (d - c))) / 2 -
          c * min (s.clientWidth * (1 - 1 / 10) / (b - a))
                  (s.clientHeight * (1 - 1 / 10) / (d - c))) } := by
  have hnot : s.minX ≠ JVal.pinf := by rw [hminX]; exact fun h => JVal.noConfusion h
  unfold fitBounds
  rw [if_neg hnot, hminX, hmaxX, hminY, hmaxY]
  simp only [JVal.jsub_fin, JVal.jdiv_fin _ _ hba, JVal.jdiv_fin _ _ hdc, JVal.jmin_fin,
    JVal.jmul_fin, JVal.jdiv_fin _ _ (by norm_num : (2 : ℚ) ≠ 0)]

/-- C5: for non-degenerate bounds and a positive viewport, `fitBounds`
sets the scale to min(0.9*width/mapWidth, 0.9*height/mapHeight), maps the
centre of the (raw-coordinate) bounding box exactly to the viewport
centre, and maps every point of the bounding box inside the viewport. -/
theorem c5_fit_centers (s : RState) (a b c d : ℚ)
    (hminX : s.minX = fin a) (hmaxX : s.maxX = fin b)
    (hminY : s.minY = fin c) (hmaxY : s.maxY = fin d)
    (hab : a < b) (hcd : c < d) (hcw : 0 < s.clientWidth) (hch : 0 < s.clientHeight) :
    (fitBounds s).scale = fin (min (s.clientWidth * (1 - 1 / 10) / (b - a))
        (s.clientHeight * (1 - 1 / 10) / (d - c))) ∧
    worldToCanvas (fitBounds s) (fin ((a + b) / 2 + s.offset.x)) (fin ((c + d) / 2 + s.offset.y)) =
      (fin (s.clientWidth / 2), fin (s.clientHeight / 2)) ∧
    ∀ px py : ℚ, a ≤ px → px ≤ b → c ≤ py → py ≤ d →
      ∃ u v : ℚ,
        worldToCanvas (fitBounds s) (fin (px + s.offset.x)) (fin (py + s.offset.y)) =
          (fin u, fin v) ∧
        0 ≤ u ∧ u ≤ s.clientWidth ∧ 0 ≤ v ∧ v ≤ s.clientHeight := by
  have hba : (0 : ℚ) < b - a := sub_pos.mpr hab
  have hdc : (0 : ℚ) < d - c := sub_pos.mpr hcd
  have h9 : (0 : ℚ) < 1 - 1 / 10 := by norm_num
  have hfit := fitBounds_nondegenerate s a b c d hminX hmaxX hminY hmaxY
    (ne_of_gt hba) (ne_of_gt hdc)
  have hm0 : 0 < min (s.clientWidth * (1 - 1 / 10) / (b - a))
      (s.clientHeight * (1 - 1 / 10) / (d - c)) :=
    lt_min (div_pos (mul_pos hcw h9) hba) (div_pos (mul_pos hch h9) hdc)
  have hmw : min (s.clientWidth * (1 - 1 / 10) / (b - a))
        (s.clientHeight * (1 - 1 / 10) / (d - c)) * (b - a) ≤
      s.clientWidth * (1 - 1 / 10) := (le_div_iff₀ hba).mp (min_le_left _ _)
  have hmh : min (s.clientWidth * (1 - 1 / 10) / (b - a))
        (s.clientHeight * (1 - 1 / 10) / (d - c)) * (d - c) ≤
      s.clientHeight * (1 - 1 / 10) := (le_div_iff₀ hdc).mp (min_le_right _ _)
  rw [hfit]
  refine ⟨rfl, ?_, ?_⟩
  · rw [worldToCanvas_fin _ _ _ _ rfl rfl rfl]
    simp only [Prod.mk.injEq, JVal.fin.injEq]
    constructor <;> ring
  · intro px py h1 h2 h3 h4
    rw [worldToCanvas_fin _ _ _ _ rfl rfl rfl]
    refine ⟨_, _, rfl, ?_, ?_, ?_, ?_⟩ <;>
      · dsimp only
        nlinarith [mul_nonneg hm0.le (sub_nonneg.mpr h1),
          mul_le_mul_of_nonneg_left (by linarith : px - a ≤ b - a) hm0.le,
          mul_nonneg hm0.le (sub_nonneg.mpr h3),
          mul_le_mul_of_nonneg_left (by linarith : py - c ≤ d - c) hm0.le,
          hmw, hmh, hcw.le, hch.le]

/-- C5 (witness): for bounds [0,10]x[0,10] on an 800x600 canvas, the fit
scale is min(72, 54) and the bounds centre (5,5) projects to the canvas
centre (400, 300). -/
theorem c5_fit_centers_witness :
    (fitBounds cex5State).scale =
      fin (min (cex5State.clientWidth * (1 - 1 / 10) / (10 - 0))
        (cex5State.clientHeight * (1 - 1 / 10) / (10 - 0))) ∧
    worldToCanvas (fitBounds cex5State)
        (fin ((0 + 10) / 2 + cex5State.offset.x)) (fin ((0 + 10) / 2 + cex5State.offset.y)) =
      (fin (cex5State.clientWidth / 2), fin (cex5State.clientHeight / 2)) :=
  ⟨(c5_fit_centers cex5State 0 10 0 10 rfl rfl rfl rfl
      (by norm_num) (by norm_num) (by norm_num) (by norm_num)).1,
   (c5_fit_centers cex5State 0 10 0 10 rfl rfl rfl rfl
      (by norm_num) (by norm_num) (by norm_num) (by norm_num)).2.1⟩

theorem consecPairs_map (f : BPoint → BPoint) (pts : List BPoint) :
    consecPairs (pts.map f) = (consecPairs pts).map (fun pr => (f pr.1, f pr.2)) := by
  unfold consecPairs
  rw [← List.map_tail, List.zip_map]
  rfl

/-- C9: the length reported by a successful pick is
`calculateRoadLength`, which sums Euclidean distances between consecutive
raw boundary points; it is invariant under translating all points (hence
unaffected by the document offset), and for the spec scenario road with
raw points (100,100) and (110,100) it equals exactly 10. -/
theorem c9_length_ignores_offset :
    (∀ (s : RState) (canvasX canvasY : JVal),
      selectRoadAtInfo s canvasX canvasY =
        (selectRoadAt s canvasX canvasY).2.map
          (fun road => ⟨jsIdOr road.RoadId, calculateRoadLength road⟩)) ∧
    (∀ (road : Road) (dx dy : ℚ),
      calculateRoadLength (shiftRoad road dx dy) = calculateRoadLength road) ∧
    calculateRoadLength cexRoadR1 = 10 := by
  refine ⟨fun s cx cy => rfl, ?_, ?_⟩
  · intro road dx dy
    unfold calculateRoadLength shiftRoad
    dsimp only
    rw [consecPairs_map, List.foldl_map]
    congr 1
    funext tot pr
    dsimp only
    congr 2
    push_cast
    ring
  · unfold calculateRoadLength cexRoadR1 consecPairs
    simp only [List.tail_cons, List.zip_cons_cons, List.zip_nil_right, List.foldl_cons,
      List.foldl_nil]
    rw [zero_add]
    rw [show (((110 : ℚ) - 100) * ((110 : ℚ) - 100) + ((100 : ℚ) - 100) * ((100 : ℚ) - 100) : ℚ) =
      100 by norm_num]
    rw [show ((100 : ℚ) : ℝ) = 10 ^ 2 by norm_num]
    exact Real.sqrt_sq (by norm_num)

/-- C6 (counterexample): `selectRoadAt` skips zero-length point pairs.
With road A (first in document order) consisting of a zero-length pair
exactly at the click and road B one unit away, the claimed
every-pair minimisation (`claimedPick`) selects A, but the code selects
B: the claim's "over every consecutive point pair" is false on the
code. -/
theorem c6_counterexample :
    (selectRoadAt cex6State (fin 0) (fin 600)).2 = some cexRoadB ∧
      claimedPick cex6State (fin 0) (fin 600) = some cexRoadA ∧
      cexRoadA ≠ cexRoadB := by
  decide

theorem pickSegStep_embed (s : RState) (w1 w2 : ℚ) (road : Road)
    (acc : Option ℚ × Option Road) (pr : BPoint × BPoint) :
    pickSegStep s (fin w1, fin w2) road (embedMin acc.1, acc.2) pr =
      (embedMin (segStepQ s.offset (w1, w2) road acc pr).1,
       (segStepQ s.offset (w1, w2) road acc pr).2) := by
  obtain ⟨accd, accb⟩ := acc
  unfold pickSegStep segStepQ candOfPair segDistSqQ
  dsimp only
  split
  next hdeg => rfl
  next hdeg =>
    dsimp only
    simp only [JVal.jsub_fin, JVal.jmul_fin, JVal.jadd_fin, JVal.jdiv_fin _ _ hdeg,
      JVal.jmin_fin, JVal.jmax_fin]
    cases accd with
    | none => rfl
    | some dprev =>
      simp only [embedMin, JVal.jlt_fin, pickStepQ, decide_eq_true_eq]
      split <;> rfl

theorem foldl_pickSegStep_embed (s : RState) (w1 w2 : ℚ) (road : Road)
    (prs : List (BPoint × BPoint)) (acc : Option ℚ × Option Road) :
    prs.foldl (pickSegStep s (fin w1, fin w2) road) (embedMin acc.1, acc.2) =
      (embedMin (prs.foldl (segStepQ s.offset (w1, w2) road) acc).1,
       (prs.foldl (segStepQ s.offset (w1, w2) road) acc).2) := by
  induction prs generalizing acc with
  | nil => rfl
  | cons pr rest ih =>
    rw [List.foldl_cons, List.foldl_cons, pickSegStep_embed s w1 w2 road acc pr]
    exact ih _

theorem foldl_segStepQ_filterMap (off : OffPoint) (w : ℚ × ℚ) (road : Road)
    (prs : List (BPoint × BPoint)) (acc : Option ℚ × Option Road) :
    prs.foldl (segStepQ off w road) acc =
      ((prs.filterMap (candOfPair off w road)).foldl pickStepQ acc) := by
  induction prs generalizing acc with
  | nil => rfl
  | cons pr rest ih =>
    rw [List.foldl_cons, List.filterMap_cons]
    cases h : candOfPair off w road pr with
    | none =>
      rw [show segStepQ off w road acc pr = acc from by unfold segStepQ; rw [h]]
      exact ih _
    | some c =>
      rw [show segStepQ off w road acc pr = pickStepQ acc c from by unfold segStepQ; rw [h],
        List.foldl_cons]
      exact ih _

theorem selectFold_embed (s : RState) (w1 w2 : ℚ) (rl : List Road)
    (acc : Option ℚ × Option Road) :
    rl.foldl
        (fun acc road =>
          (consecPairs road.BoundaryPoints).foldl (pickSegStep s (fin w1, fin w2) road) acc)
        (embedMin acc.1, acc.2) =
      (embedMin ((roadCandsQ s.offset (w1, w2) rl).foldl pickStepQ acc).1,
       ((roadCandsQ s.offset (w1, w2) rl).foldl pickStepQ acc).2) := by
  induction rl generalizing acc with
  | nil => rfl
  | cons rd rest ih =>
    rw [List.foldl_cons, foldl_pickSegStep_embed s w1 w2 rd _ acc, ih]
    rw [show roadCandsQ s.offset (w1, w2) (rd :: rest) =
        List.filterMap (candOfPair s.offset (w1, w2) rd) (consecPairs rd.BoundaryPoints) ++
          roadCandsQ s.offset (w1, w2) rest from rfl,
      List.foldl_append, foldl_segStepQ_filterMap]

theorem pickFold_some_char (cs : List (Road × ℚ)) (d : ℚ) (b : Road) :
    (cs.foldl pickStepQ (some d, some b) = (some d, some b) ∧ ∀ c ∈ cs, d ≤ c.2) ∨
    (∃ q rd l1 l2, cs.foldl pickStepQ (some d, some b) = (some q, some rd) ∧ q < d ∧
      cs = l1 ++ (rd, q) :: l2 ∧ (∀ c ∈ l1, q < c.2) ∧ (∀ c ∈ l2, q ≤ c.2)) := by
  induction cs generalizing d b with
  | nil => exact Or.inl ⟨rfl, by simp⟩
  | cons c rest ih =>
    rw [List.foldl_cons]
    by_cases hc : c.2 < d
    · rw [show pickStepQ (some d, some b) c = (some c.2, some c.1) from by
        unfold pickStepQ; dsimp only; rw [if_pos hc]]
      rcases ih c.2 c.1 with ⟨heq, hall⟩ | ⟨q, rd, l1, l2, heq, hq, hsplit, hl1, hl2⟩
      · refine Or.inr ⟨c.2, c.1, [], rest, heq, hc, by simp, by simp, hall⟩
      · refine Or.inr ⟨q, rd, c :: l1, l2, heq, lt_trans hq hc, by rw [hsplit]; rfl, ?_, hl2⟩
        intro e he
        rcases List.mem_cons.mp he with he | he
        · subst he; exact hq
        · exact hl1 e he
    · rw [show pickStepQ (some d, some b) c = (some d, some b) from by
        unfold pickStepQ; dsimp only; rw [if_neg hc]]
      rcases ih d b with ⟨heq, hall⟩ | ⟨q, rd, l1, l2, heq, hq, hsplit, hl1, hl2⟩
      · refine Or.inl ⟨heq, ?_⟩
        intro e he
        rcases List.mem_cons.mp he with he | he
        · subst he; exact not_lt.mp hc
        · exact hall e he
      · refine Or.inr ⟨q, rd, c :: l1, l2, heq, hq, by rw [hsplit]; rfl, ?_, hl2⟩
        intro e he
        rcases List.mem_cons.mp he with he | he
        · subst he; exact lt_of_lt_of_le hq (not_lt.mp hc)
        · exact hl1 e he

theorem pickFold_char (cs : List (Road × ℚ)) :
    (cs.foldl pickStepQ (none, none) = (none, none) ∧ cs = []) ∨
    (∃ q rd l1 l2, cs.foldl pickStepQ (none, none) = (some q, some rd) ∧
      cs = l1 ++ (rd, q) :: l2 ∧ (∀ c ∈ l1, q < c.2) ∧ (∀ c ∈ l2, q ≤ c.2)) := by
  cases cs with
  | nil => exact Or.inl ⟨rfl, rfl⟩
  | cons c rest =>
    refine Or.inr ?_
    rw [List.foldl_cons, show pickStepQ (none, none) c = (some c.2, some c.1) from rfl]
    rcases pickFold_some_char rest c.2 c.1 with ⟨heq, hall⟩ |
      ⟨q, rd, l1, l2, heq, hq, hsplit, hl1, hl2⟩
    · exact ⟨c.2, c.1, [], rest, heq, by simp, by simp, hall⟩
    · refine ⟨q, rd, c :: l1, l2, heq, by rw [hsplit]; rfl, ?_, hl2⟩
      intro e he
      rcases List.mem_cons.mp he with he | he
      · subst he; exact hq
      · exact hl1 e he

theorem JVal.jlt_pinf (v : JVal) : jlt pinf v = false := by
  cases v <;> rfl

/-- C6 (amended): over the nondegenerate consecutive point pairs
(zero-length pairs are skipped by the code and contribute no candidate),
`selectRoadAt` selects exactly the first road in document order achieving
the strict global minimum of the clamped-projection squared distances
when that minimum is strictly below the squared world tolerance
(5/scale)^2, and otherwise clears the selection and returns null; the
stored selection always equals the returned road. -/
theorem c6_pick_first_strict_min (s : RState) (sc a b : ℚ)
    (hs : s.scale = fin sc) (hsc : 0 < sc)
    (hx : s.translateX = fin a) (hy : s.translateY = fin b)
    (d : MapData) (rl : List Road) (hd : s.data = some d) (hrl : d.roadLine = some rl)
    (cx cy : ℚ) :
    (∀ rd, (selectRoadAt s (fin cx) (fin cy)).2 = some rd →
      ∃ q l1 l2,
        roadCandsQ s.offset ((cx - a) / sc, (s.clientHeight - cy - b) / sc) rl =
          l1 ++ (rd, q) :: l2 ∧
        q < 5 / sc * (5 / sc) ∧ (∀ c ∈ l1, q < c.2) ∧ (∀ c ∈ l2, q ≤ c.2)) ∧
    ((selectRoadAt s (fin cx) (fin cy)).2 = none →
      ∀ c ∈ roadCandsQ s.offset ((cx - a) / sc, (s.clientHeight - cy - b) / sc) rl,
        5 / sc * (5 / sc) ≤ c.2) ∧
    (selectRoadAt s (fin cx) (fin cy)).1.selectedRoad = (selectRoadAt s (fin cx) (fin cy)).2 := by
  have hsc0 : sc ≠ 0 := ne_of_gt hsc
  have hkey : selectRoadAt s (fin cx) (fin cy) =
      (if jlt (embedMin (((roadCandsQ s.offset ((cx - a) / sc, (s.clientHeight - cy - b) / sc)
              rl).foldl pickStepQ (none, none)).1)) (fin (5 / sc * (5 / sc)))
       then ({ s with selectedRoad :=
                ((roadCandsQ s.offset ((cx - a) / sc, (s.clientHeight - cy - b) / sc)
                  rl).foldl pickStepQ (none, none)).2 },
             ((roadCandsQ s.offset ((cx - a) / sc, (s.clientHeight - cy - b) / sc)
               rl).foldl pickStepQ (none, none)).2)
       else ({ s with selectedRoad := none }, none)) := by
    unfold selectRoadAt
    rw [hd]
    dsimp only
    rw [hrl]
    dsimp only
    rw [canvasToWorld_fin s sc a b hsc0 hs hx hy, hs, JVal.jdiv_fin 5 sc hsc0]
    simp only [JVal.jmul_fin]
    rw [show ((JVal.pinf : JVal), (none : Option Road)) =
        (embedMin none, (none : Option Road)) from rfl,
      selectFold_embed s ((cx - a) / sc) ((s.clientHeight - cy - b) / sc) rl (none, none)]
  rcases pickFold_char
      (roadCandsQ s.offset ((cx - a) / sc, (s.clientHeight - cy - b) / sc) rl) with
    ⟨heq, hnil⟩ | ⟨q, rd0, l1, l2, heq, hsplit, hl1, hl2⟩
  · rw [heq] at hkey
    simp only [embedMin, JVal.jlt_pinf, Bool.false_eq_true, if_false] at hkey
    refine ⟨?_, ?_, ?_⟩
    · intro rd hrd
      rw [hkey] at hrd
      simp at hrd
    · intro _ c hc
      rw [hnil] at hc
      simp at hc
    · rw [hkey]
  · rw [heq] at hkey
    simp only [embedMin, JVal.jlt_fin, decide_eq_true_eq] at hkey
    by_cases hq : q < 5 / sc * (5 / sc)
    · rw [if_pos hq] at hkey
      refine ⟨?_, ?_, ?_⟩
      · intro rd hrd
        rw [hkey] at hrd
        dsimp only at hrd
        injection hrd with h
        subst h
        exact ⟨q, l1, l2, hsplit, hq, hl1, hl2⟩
      · intro hnone
        rw [hkey] at hnone
        simp at hnone
      · rw [hkey]
    · rw [if_neg hq] at hkey
      refine ⟨?_, ?_, ?_⟩
      · intro rd hrd
        rw [hkey] at hrd
        simp at hrd
      · intro _ c hc
        have hqle : q ≤ c.2 := by
          rw [hsplit] at hc
          rcases List.mem_append.mp hc with h | h
          · exact le_of_lt (hl1 c h)
          · rcases List.mem_cons.mp h with h | h
            · rw [h]
            · exact hl2 c h
        exact le_trans (not_lt.mp hq) hqle
      · rw [hkey]

/-- C6 (witness for the amended theorem): at the concrete two-road state,
the stored selection equals the returned road. -/
theorem c6_pick_first_strict_min_witness :
    (selectRoadAt cex6State (fin 0) (fin 600)).1.selectedRoad =
      (selectRoadAt cex6State (fin 0) (fin 600)).2 :=
  (c6_pick_first_strict_min cex6State 1 0 0 rfl (by norm_num) rfl rfl
    ⟨some ⟨0, 0, 0⟩, some [cexRoadA, cexRoadB]⟩ [cexRoadA, cexRoadB] rfl rfl 0 600).2.2
